import Mathlib

set_option maxRecDepth 100000

/-!
Verification of the typed-data hashing and signature-encoding pipeline of the
otim-federated-access-demo repository.

The embedding mirrors the TypeScript source:
* `src/clients/OtimApiClient.ts` — `hashCompletionInstruction` (the ABI
  argument decoder plus the EIP-712 typed-data assembly handed to viem's
  `hashTypedData`), `createSigningHashList`, `getOptimalGasFees`;
* `src/clients/TurnkeyApiClient.ts` — `signRawPayloads` request assembly;
* `src/index.ts` — the `main` signing phase and the flat-signature
  concatenation `sig.r + sig.s.slice(2) + sig.v.slice(2)`.

JavaScript strings are modelled as `List Char`; `String.prototype.slice(a, b)`
on in-range indices is `(l.drop a).take (b - a)`, which clamps exactly like the
JS function does for `0 ≤ a ≤ b`.  `BigInt('0x' + s)` is modelled by
`parseHexNat`, which fails on an empty or non-hex-digit string exactly as the
JS call throws a `SyntaxError` there (the exotic case of trailing whitespace
being trimmed by `BigInt` is not modelled; no statement below evaluates such
an input).

viem's `hashTypedData` is an external library function: a fixed pure function
of the `(domain, types, primaryType, message)` record it is given.  Since the
`types` and `primaryType` arguments are compile-time constants in this code
base, a digest is represented here by its preimage — the `TypedData` record
holding the domain and message that the source passes to `hashTypedData`.
Equal preimages give equal digests (purity); for the keccak-based EIP-712
encoding of a fixed schema, distinct preimages with distinct numeric field
values give distinct digests under the standard collision-freeness contract of
keccak256, which is what the preimage representation captures.  The hardcoded
domain salt `keccak256(toHex("ON_TIME_INSTRUCTED_MONEY"))` is likewise a
constant and is represented by its preimage string.
-/

namespace Otim

/-- The two-character `0x` marker that the source prepends to every hex slice
it extracts (`'0x' + args.slice(i, j)`). -/
def hexPfx : List Char := ['0', 'x']

/-- Value of one hexadecimal digit, accepting both cases, as JavaScript's
`BigInt` hex parser does; `none` on any other character. -/
def hexDigitVal (c : Char) : Option Nat :=
  if '0' ≤ c ∧ c ≤ '9' then some (c.toNat - '0'.toNat)
  else if 'a' ≤ c ∧ c ≤ 'f' then some (c.toNat - 'a'.toNat + 10)
  else if 'A' ≤ c ∧ c ≤ 'F' then some (c.toNat - 'A'.toNat + 10)
  else none

/-- A character is a hex digit exactly when `hexDigitVal` accepts it. -/
def isHexDigit (c : Char) : Bool := (hexDigitVal c).isSome

/-- Big-endian accumulation of hex digits; `none` as soon as a character is
not a hex digit, like the `SyntaxError` of `BigInt`. -/
def parseHexDigits : List Char → Nat → Option Nat
  | [], acc => some acc
  | c :: cs, acc =>
    match hexDigitVal c with
    | none => none
    | some v => parseHexDigits cs (16 * acc + v)

/-- `BigInt('0x' + l)`: fails on the empty digit string (JS throws on
`BigInt('0x')`), otherwise parses `l` as big-endian hexadecimal. -/
def parseHexNat (l : List Char) : Option Nat :=
  if l = [] then none else parseHexDigits l 0

/-- JavaScript `l.slice(a, b)` for `0 ≤ a ≤ b`: the characters from index `a`
(inclusive) to `b` (exclusive), clamped to the string's length. -/
def jsSlice (l : List Char) (a b : Nat) : List Char :=
  (l.drop a).take (b - a)

/-- An instruction as received from the payments API
(`src/index.ts`, `PaymentRequestBuildResponse.completionInstructions`):
`chainId`, `salt`, `maxExecutions`, `action` and the ABI-encoded `arguments`
byte string (kept verbatim, `0x` marker included).  The numeric fields are
already-parsed arbitrary-precision naturals (the source applies `BigInt` to
`salt` and `maxExecutions` before use). -/
structure Instruction where
  chainId : Nat
  salt : Nat
  maxExecutions : Nat
  action : List Char
  arguments : List Char
deriving DecidableEq

/-- The eight values the argument decoder produces, in the source's order
(`src/clients/OtimApiClient.ts` lines 88–96).  Address-typed fields are hex
strings exactly as the source builds them; integer fields are naturals. -/
structure DecodedArguments where
  token : List Char
  target : List Char
  threshold : Nat
  endBalance : Nat
  feeToken : List Char
  maxBaseFeePerGas : Nat
  maxPriorityFeePerGas : Nat
  executionFee : Nat
deriving DecidableEq

/-- The ABI argument decoder of `hashCompletionInstruction`
(`src/clients/OtimApiClient.ts` lines 88–96), with the source's exact slice
boundaries into the hex string after `slice(2)` removes the first two
characters:

* `token      = '0x' + args.slice(24, 64)`
* `target     = '0x' + args.slice(64, 104)`
* `threshold  = BigInt('0x' + args.slice(104, 136))`
* `endBalance = BigInt('0x' + args.slice(136, 168))`
* `feeToken   = '0x' + args.slice(168, 208)`
* `maxBaseFeePerGas      = BigInt('0x' + args.slice(208, 240))`
* `maxPriorityFeePerGas  = BigInt('0x' + args.slice(240, 272))`
* `executionFee          = BigInt('0x' + args.slice(272, 304))`

The five `BigInt` parses are the only failure points; the three address
slices are used verbatim without any parsing or normalization.  (All five
parses are pure; their failure collapses to `none` regardless of which one
fires first, matching the thrown `SyntaxError` aborting the call.) -/
def decodeArgs (argumentsStr : List Char) : Option DecodedArguments :=
  let args := argumentsStr.drop 2
  match parseHexNat (jsSlice args 104 136), parseHexNat (jsSlice args 136 168),
      parseHexNat (jsSlice args 208 240), parseHexNat (jsSlice args 240 272),
      parseHexNat (jsSlice args 272 304) with
  | some threshold, some endBalance, some maxBaseFeePerGas,
      some maxPriorityFeePerGas, some executionFee =>
    some { token := hexPfx ++ jsSlice args 24 64
           target := hexPfx ++ jsSlice args 64 104
           threshold := threshold
           endBalance := endBalance
           feeToken := hexPfx ++ jsSlice args 168 208
           maxBaseFeePerGas := maxBaseFeePerGas
           maxPriorityFeePerGas := maxPriorityFeePerGas
           executionFee := executionFee }
  | _, _, _, _, _ => none

/-- The decoder that the specification's words describe (§3, §4.1): the byte
string must hold exactly eight 32-byte words (512 hex characters after the
`0x` marker) of hex digits; each address is the low 20 bytes of its word
(`token` word 0, `target` word 1, `feeToken` word 4) and each integer is the
full 32-byte big-endian value of its word (`threshold` word 2, `endBalance`
word 3, `maxBaseFeePerGas` word 5, `maxPriorityFeePerGas` word 6,
`executionFee` word 7).  Declared only to compare the source decoder against
the specified layout. -/
def decodeArgsPerSpec (argumentsStr : List Char) : Option DecodedArguments :=
  let args := argumentsStr.drop 2
  if args.length = 512 ∧ args.all isHexDigit = true then
    match parseHexNat (jsSlice args 128 192), parseHexNat (jsSlice args 192 256),
        parseHexNat (jsSlice args 320 384), parseHexNat (jsSlice args 384 448),
        parseHexNat (jsSlice args 448 512) with
    | some threshold, some endBalance, some maxBaseFeePerGas,
        some maxPriorityFeePerGas, some executionFee =>
      some { token := hexPfx ++ jsSlice args 24 64
             target := hexPfx ++ jsSlice args 88 128
             threshold := threshold
             endBalance := endBalance
             feeToken := hexPfx ++ jsSlice args 280 320
             maxBaseFeePerGas := maxBaseFeePerGas
             maxPriorityFeePerGas := maxPriorityFeePerGas
             executionFee := executionFee }
    | _, _, _, _, _ => none
  else none

/-- The `Fee` leaf of the EIP-712 message tree, with the declared field order
`token, maxBaseFeePerGas, maxPriorityFeePerGas, executionFee`. -/
structure Fee where
  token : List Char
  maxBaseFeePerGas : Nat
  maxPriorityFeePerGas : Nat
  executionFee : Nat
deriving DecidableEq

/-- The `SweepERC20` node of the EIP-712 message tree, field order
`token, target, threshold, endBalance, fee`. -/
structure SweepERC20 where
  token : List Char
  target : List Char
  threshold : Nat
  endBalance : Nat
  fee : Fee
deriving DecidableEq

/-- The `Instruction`-typed EIP-712 message, field order
`salt, maxExecutions, action, sweepERC20`. -/
structure SweepMessage where
  salt : Nat
  maxExecutions : Nat
  action : List Char
  sweepERC20 : SweepERC20
deriving DecidableEq

/-- The EIP-712 domain the source builds: constant `name` `"OtimDelegate"`,
constant `version` `"1"`, the instruction's `chainId`, the delegate address as
`verifyingContract`, and the constant salt
`keccak256(toHex("ON_TIME_INSTRUCTED_MONEY"))`, represented by its preimage
string. -/
structure Domain where
  chainId : Nat
  name : List Char
  saltPreimage : List Char
  verifyingContract : List Char
  version : List Char
deriving DecidableEq

/-- The full record passed to viem's `hashTypedData` (its `types` and
`primaryType` arguments are the compile-time constants of the source and are
omitted).  This record is the digest's preimage and stands for the digest. -/
structure TypedData where
  domain : Domain
  message : SweepMessage
deriving DecidableEq

/-- `hashCompletionInstruction` (`src/clients/OtimApiClient.ts` lines 83–158):
decode the `arguments` blob with the source's slice boundaries, then assemble
the EIP-712 domain and message exactly as the source does and hand them to
`hashTypedData`.  The digest is represented by the assembled `TypedData`
preimage. -/
def hashCompletionInstruction (instruction : Instruction)
    (delegateAddress : List Char) : Option TypedData :=
  (decodeArgs instruction.arguments).map fun dec =>
    { domain :=
        { chainId := instruction.chainId
          name := "OtimDelegate".data
          saltPreimage := "ON_TIME_INSTRUCTED_MONEY".data
          verifyingContract := delegateAddress
          version := "1".data }
      message :=
        { salt := instruction.salt
          maxExecutions := instruction.maxExecutions
          action := instruction.action
          sweepERC20 :=
            { token := dec.token
              target := dec.target
              threshold := dec.threshold
              endBalance := dec.endBalance
              fee :=
                { token := dec.feeToken
                  maxBaseFeePerGas := dec.maxBaseFeePerGas
                  maxPriorityFeePerGas := dec.maxPriorityFeePerGas
                  executionFee := dec.executionFee } } } }

/-- One entry of the signing hash list: the EIP-7702 authorization digest
(an opaque hex string produced by viem's `hashAuthorization`, kept verbatim)
or an EIP-712 instruction digest (represented by its preimage). -/
inductive SigningHash where
  | authorization (h : List Char)
  | eip712 (t : TypedData)
deriving DecidableEq

/-- The relevant part of the payments API's build response: the two
instruction lists, each possibly absent (the source guards both with
`if (paymentResponse.…)`). -/
structure PaymentResponse where
  completionInstructions : Option (List Instruction)
  instructions : Option (List Instruction)
deriving DecidableEq

/-- The source's `for … of` loop pushing one EIP-712 digest per instruction,
aborting on the first failure (a thrown decode error rejects the whole
call). -/
def hashInstructionList (delegateAddress : List Char) :
    List Instruction → Option (List SigningHash)
  | [] => some []
  | i :: rest =>
    match hashCompletionInstruction i delegateAddress with
    | none => none
    | some t =>
      (hashInstructionList delegateAddress rest).map (SigningHash.eip712 t :: ·)

/-- `createSigningHashList` (`src/clients/OtimApiClient.ts` lines 58–81):
start from `[authHash]`, resolve the delegate address once (passed in here as
the result of that single external lookup), then append one digest per
completion instruction and then one per regular instruction, in order.  An
absent list is skipped. -/
def createSigningHashList (authHash : List Char)
    (paymentResponse : PaymentResponse) (delegateAddress : List Char) :
    Option (List SigningHash) := do
  let cs ← hashInstructionList delegateAddress
    (paymentResponse.completionInstructions.getD [])
  let is ← hashInstructionList delegateAddress
    (paymentResponse.instructions.getD [])
  return SigningHash.authorization authHash :: (cs ++ is)

/-- A raw signature as returned by the remote signer: three strings, kept
verbatim. -/
structure RawSignature where
  r : List Char
  s : List Char
  v : List Char
deriving DecidableEq

/-- The flat signature concatenation of `src/index.ts` line 508:
`sig.r + sig.s.slice(2) + sig.v.slice(2)` — `r` kept whole, the first two
characters of `s` and of `v` removed. -/
def flatSignature (r s v : List Char) : List Char :=
  r ++ s.drop 2 ++ v.drop 2

/-- Modelled from the spec: the Signature Format Converter (spec §4.5 and the
`CompactSignature` derivation of §3) is not among the provided source files —
only its contract is specified.  Per the spec's words: `v` values `0/1` pass
through unchanged, `27/28` map to `0/1`, and any other value maps via
`v mod 2`.  A total function by construction, so it cannot throw. -/
def normalizeV (v : Nat) : Nat :=
  if v = 0 ∨ v = 1 then v
  else if v = 27 then 0
  else if v = 28 then 1
  else v % 2

/-- The request record `signRawPayloads` submits
(`src/clients/TurnkeyApiClient.ts` lines 45–59). -/
structure SignRawPayloadsRequest where
  organizationId : List Char
  signWith : List Char
  payloads : List (List Char)
  encoding : List Char
  hashFunction : List Char
deriving DecidableEq

/-- `signRawPayloads` request assembly (`src/clients/TurnkeyApiClient.ts`
lines 45–59): the signing address is passed through viem's `getAddress`
(EIP-55 checksumming, an external library function taken as a parameter
here), the payloads are forwarded verbatim, and the encoding and hash-function
markers are constants. -/
def signRawPayloads (getAddress : List Char → List Char)
    (organizationId : List Char) (payloads : List (List Char))
    (signWith : List Char) : SignRawPayloadsRequest :=
  { organizationId := organizationId
    signWith := getAddress signWith
    payloads := payloads
    encoding := "PAYLOAD_ENCODING_HEXADECIMAL".data
    hashFunction := "HASH_FUNCTION_NO_OP".data }

/-- The gas-fee pair `getOptimalGasFees` returns. -/
structure GasFees where
  maxBaseFeePerGas : List Char
  maxPriorityFeePerGas : List Char
deriving DecidableEq

/-- `getOptimalGasFees` (`src/clients/OtimApiClient.ts` lines 22–33 and
181–197, identical logic): from the API's `normalMaxPriorityFeeEstimate`
(a number; modelled as the natural it carries), return the constant string
`'0x0'` as `maxBaseFeePerGas` and
``` `0x${estimate.toString(16)}` ``` as `maxPriorityFeePerGas`. -/
def getOptimalGasFees (normalMaxPriorityFeeEstimate : Nat) : GasFees :=
  { maxBaseFeePerGas := "0x0".data
    maxPriorityFeePerGas := hexPfx ++ Nat.toDigits 16 normalMaxPriorityFeeEstimate }

/-- Observable interaction with the remote signer. -/
inductive SignerEvent where
  | signCall (payloads : List SigningHash)
deriving DecidableEq

/-- The signing phase of `main` (`src/index.ts` lines 54–72): assemble the
signing hash list, and only if that succeeds call the signer on the whole
list.  The returned event trace records the signer calls that the run makes;
the signer itself is an external collaborator taken as a parameter. -/
def mainSigningPhase (authHash : List Char) (response : PaymentResponse)
    (delegateAddress : List Char)
    (signer : List SigningHash → List RawSignature) :
    Option (List RawSignature) × List SignerEvent :=
  match createSigningHashList authHash response delegateAddress with
  | none => (none, [])
  | some hashes => (some (signer hashes), [SignerEvent.signCall hashes])

/-!
Concrete sample data used to evaluate the definitions.  `wordsPrefix` holds
seven full 32-byte words of the specified layout (448 hex characters):
word 0 carries the token address `0xaaaa…` low-aligned, word 1 the target
address `0xbbbb…` low-aligned, word 2 the threshold `1`, word 3 the
end balance `2`, word 4 the fee token `0xcccc…` low-aligned, word 5 the
max base fee `3` and word 6 the max priority fee `4`.  `argsFeeA` and
`argsFeeB` complete it with an eighth word holding an execution fee of `5`
and of `6` respectively, so the two blobs are well-formed 256-byte encodings
differing exactly in the `executionFee` word. -/

def wordsPrefix : List Char :=
  List.replicate 24 '0' ++ List.replicate 40 'a' ++
  List.replicate 24 '0' ++ List.replicate 40 'b' ++
  List.replicate 63 '0' ++ ['1'] ++
  List.replicate 63 '0' ++ ['2'] ++
  List.replicate 24 '0' ++ List.replicate 40 'c' ++
  List.replicate 63 '0' ++ ['3'] ++
  List.replicate 63 '0' ++ ['4']

/-- A well-formed 512-hex-character arguments blob whose `executionFee` word
holds `5`. -/
def argsFeeA : List Char :=
  '0' :: 'x' :: (wordsPrefix ++ List.replicate 63 '0' ++ ['5'])

/-- Identical to `argsFeeA` except that the `executionFee` word holds `6`:
the two blobs differ only in their final 32-byte word. -/
def argsFeeB : List Char :=
  '0' :: 'x' :: (wordsPrefix ++ List.replicate 63 '0' ++ ['6'])

/-- A sample delegate address, used verbatim as `verifyingContract`. -/
def sampleDelegate : List Char :=
  "0xe1e1e1e1e1e1e1e1e1e1e1e1e1e1e1e1e1e1e1e1".data

/-- A sample authorization digest string. -/
def sampleAuthHash : List Char :=
  "0xa0a0a0a0a0a0a0a0a0a0a0a0a0a0a0a0a0a0a0a0a0a0a0a0a0a0a0a0a0a0a0a0".data

/-- An instruction carrying `argsFeeA`. -/
def instFeeA : Instruction :=
  { chainId := 8453, salt := 7, maxExecutions := 1
    action := "0xd1d1d1d1d1d1d1d1d1d1d1d1d1d1d1d1d1d1d1d1".data
    arguments := argsFeeA }

/-- The same instruction except that its arguments blob is `argsFeeB`. -/
def instFeeB : Instruction :=
  { chainId := 8453, salt := 7, maxExecutions := 1
    action := "0xd1d1d1d1d1d1d1d1d1d1d1d1d1d1d1d1d1d1d1d1".data
    arguments := argsFeeB }

/-- An all-zero-words arguments blob (512 hex characters of `'0'`). -/
def argsZero : List Char := '0' :: 'x' :: List.replicate 512 '0'

/-- A decodable instruction carrying the all-zero blob. -/
def instGood : Instruction :=
  { chainId := 8453, salt := 7, maxExecutions := 1
    action := "0xd1d1d1d1d1d1d1d1d1d1d1d1d1d1d1d1d1d1d1d1".data
    arguments := argsZero }

/-- The typed-data preimage `hashCompletionInstruction` assembles for
`instGood` with `sampleDelegate`. -/
def tGood : TypedData :=
  { domain :=
      { chainId := 8453
        name := "OtimDelegate".data
        saltPreimage := "ON_TIME_INSTRUCTED_MONEY".data
        verifyingContract := sampleDelegate
        version := "1".data }
    message :=
      { salt := 7
        maxExecutions := 1
        action := "0xd1d1d1d1d1d1d1d1d1d1d1d1d1d1d1d1d1d1d1d1".data
        sweepERC20 :=
          { token := hexPfx ++ List.replicate 40 '0'
            target := hexPfx ++ List.replicate 40 '0'
            threshold := 0
            endBalance := 0
            fee :=
              { token := hexPfx ++ List.replicate 40 '0'
                maxBaseFeePerGas := 0
                maxPriorityFeePerGas := 0
                executionFee := 0 } } } }

/-- An arguments blob of the wrong total length — only 304 hex characters
(152 bytes) after the marker — consisting entirely of hex digits. -/
def wrongLenArgs : List Char := '0' :: 'x' :: List.replicate 304 '1'

/-- An undecodable instruction: its arguments blob is just the `0x` marker,
so every numeric segment is empty and `BigInt` throws. -/
def instBad : Instruction :=
  { chainId := 8453, salt := 7, maxExecutions := 1
    action := "0xd1d1d1d1d1d1d1d1d1d1d1d1d1d1d1d1d1d1d1d1".data
    arguments := hexPfx }

/-- A payment response whose single completion instruction cannot be
decoded. -/
def respBad : PaymentResponse := { completionInstructions := some [instBad], instructions := some [] }

/-- Arguments blob whose token word carries the address `0xaaaa…` written in
lowercase; every other word is zero. -/
def argsLowerTok : List Char :=
  '0' :: 'x' :: (List.replicate 24 '0' ++ List.replicate 40 'a' ++ List.replicate 448 '0')

/-- The same blob with the token address written in uppercase: it encodes the
same 20-byte address value. -/
def argsUpperTok : List Char :=
  '0' :: 'x' :: (List.replicate 24 '0' ++ List.replicate 40 'A' ++ List.replicate 448 '0')

/-- Instruction carrying `argsLowerTok`. -/
def instLowerTok : Instruction :=
  { chainId := 1, salt := 0, maxExecutions := 1
    action := "0xd1d1d1d1d1d1d1d1d1d1d1d1d1d1d1d1d1d1d1d1".data
    arguments := argsLowerTok }

/-- Instruction carrying `argsUpperTok`. -/
def instUpperTok : Instruction :=
  { chainId := 1, salt := 0, maxExecutions := 1
    action := "0xd1d1d1d1d1d1d1d1d1d1d1d1d1d1d1d1d1d1d1d1".data
    arguments := argsUpperTok }

/-- A sample 32-byte `r` value, `0x` plus 63 zeros and a final `1`. -/
def rSample : List Char := '0' :: 'x' :: (List.replicate 63 '0' ++ ['1'])

/-- A sample 32-byte `s` value, `0x` plus 63 zeros and a final `2`. -/
def sSample : List Char := '0' :: 'x' :: (List.replicate 63 '0' ++ ['2'])

/-!  Helper lemmas about slices and hex parsing. -/

/-- Hex parsing cannot fail on a string of hex digits. -/
lemma parseHexDigits_isSome (l : List Char) :
    ∀ acc : Nat, (∀ c ∈ l, isHexDigit c = true) → (parseHexDigits l acc).isSome = true := by
  induction l with
  | nil => intro acc _; rfl
  | cons c cs ih =>
    intro acc hall
    have hc : (hexDigitVal c).isSome = true := hall c (by simp)
    obtain ⟨v, hv⟩ := Option.isSome_iff_exists.mp hc
    simp only [parseHexDigits, hv]
    exact ih _ fun d hd => hall d (by simp [hd])

/-- `BigInt('0x' + l)` succeeds on any nonempty string of hex digits. -/
lemma parseHexNat_isSome (l : List Char) (hne : l ≠ [])
    (hhex : ∀ c ∈ l, isHexDigit c = true) : (parseHexNat l).isSome = true := by
  unfold parseHexNat
  rw [if_neg hne]
  exact parseHexDigits_isSome l 0 hhex

/-- Every character of a slice is a character of the sliced string. -/
lemma jsSlice_subset (l : List Char) (a b : Nat) :
    ∀ c ∈ jsSlice l a b, c ∈ l := by
  intro c hc
  exact List.drop_subset a l (List.take_subset _ _ hc)

/-- A slice with its start strictly inside the string and a nonempty index
range is nonempty. -/
lemma jsSlice_ne_nil (l : List Char) (a b : Nat) (ha : a < l.length)
    (hb : a < b) : jsSlice l a b ≠ [] := by
  unfold jsSlice
  intro h
  have hlen := congrArg List.length h
  simp only [List.length_take, List.length_drop, List.length_nil] at hlen
  omega

/-- Slicing below index `n` only looks at the first `n` characters. -/
lemma jsSlice_take (l : List Char) (n a b : Nat) (h : b ≤ n) :
    jsSlice (l.take n) a b = jsSlice l a b := by
  unfold jsSlice
  rw [List.drop_take, List.take_take]
  congr 1
  omega

/-- Source decoder outputs agree whenever the inputs agree on the first 304
characters after the `0x` marker: every slice the decoder takes ends at or
before index 304. -/
lemma decodeArgs_eq_of_take (a₁ a₂ : List Char)
    (h : (a₁.drop 2).take 304 = (a₂.drop 2).take 304) :
    decodeArgs a₁ = decodeArgs a₂ := by
  have e : ∀ i j : Nat, j ≤ 304 →
      jsSlice (a₁.drop 2) i j = jsSlice (a₂.drop 2) i j := by
    intro i j hj
    rw [← jsSlice_take (a₁.drop 2) 304 i j hj, h, jsSlice_take (a₂.drop 2) 304 i j hj]
  simp only [decodeArgs]
  rw [e 24 64 (by omega), e 64 104 (by omega), e 104 136 (by omega),
    e 136 168 (by omega), e 168 208 (by omega), e 208 240 (by omega),
    e 240 272 (by omega), e 272 304 (by omega)]

/-- Whatever the source decoder returns, its three address fields are the
verbatim `0x`-prefixed raw slices of the input. -/
lemma decodeArgs_fields (a : List Char) (dec : DecodedArguments)
    (h : decodeArgs a = some dec) :
    dec.token = hexPfx ++ jsSlice (a.drop 2) 24 64 ∧
    dec.target = hexPfx ++ jsSlice (a.drop 2) 64 104 ∧
    dec.feeToken = hexPfx ++ jsSlice (a.drop 2) 168 208 := by
  simp only [decodeArgs] at h
  split at h
  · injection h with h
    subst h
    exact ⟨rfl, rfl, rfl⟩
  · exact absurd h (by simp)

/-- Shape of a successful `hashInstructionList` run: one digest per
instruction, positionally. -/
lemma hashInstructionList_spec (d : List Char) :
    ∀ (l : List Instruction) (l' : List SigningHash),
      hashInstructionList d l = some l' →
      l'.length = l.length ∧
      ∀ k : Nat, l'[k]? =
        (l[k]?).bind fun i => (hashCompletionInstruction i d).map SigningHash.eip712 := by
  intro l
  induction l with
  | nil =>
    intro l' h
    simp only [hashInstructionList, Option.some.injEq] at h
    subst h
    simp
  | cons i rest ih =>
    intro l' h
    simp only [hashInstructionList] at h
    cases hi : hashCompletionInstruction i d with
    | none => rw [hi] at h; exact absurd h (by simp)
    | some t =>
      rw [hi] at h
      cases hr : hashInstructionList d rest with
      | none => rw [hr] at h; exact absurd h (by simp)
      | some rest' =>
        rw [hr] at h
        simp only [Option.map_some', Option.some.injEq] at h
        subst h
        obtain ⟨hlen, helem⟩ := ih rest' hr
        refine ⟨by simp [hlen], ?_⟩
        intro k
        cases k with
        | zero => simp [hi]
        | succ k => simpa using helem k

/-!  The claims. -/

/-- Claim C1 (code bug, evaluated at the failing input): on a well-formed
256-byte blob the source decoder agrees with the specified fixed layout only
on the `token` field (whose slice `24–64` happens to coincide with the low 20
bytes of word 0); on `target`, `threshold`, `endBalance`, `feeToken`,
`maxBaseFeePerGas`, `maxPriorityFeePerGas` and `executionFee` it returns
different values than the low-20-bytes/full-word extraction the claim (and the
source's own inline comments, which advance by one 32-byte word per field)
describe, because its slice boundaries advance by 40 or 32 hex characters
instead of 64. -/
theorem C1_decoder_diverges_from_layout :
    (decodeArgs argsFeeA).isSome = true ∧
    (decodeArgsPerSpec argsFeeA).isSome = true ∧
    (decodeArgs argsFeeA).map DecodedArguments.token
      = (decodeArgsPerSpec argsFeeA).map DecodedArguments.token ∧
    (decodeArgs argsFeeA).map DecodedArguments.target
      ≠ (decodeArgsPerSpec argsFeeA).map DecodedArguments.target ∧
    (decodeArgs argsFeeA).map DecodedArguments.threshold
      ≠ (decodeArgsPerSpec argsFeeA).map DecodedArguments.threshold ∧
    (decodeArgs argsFeeA).map DecodedArguments.endBalance
      ≠ (decodeArgsPerSpec argsFeeA).map DecodedArguments.endBalance ∧
    (decodeArgs argsFeeA).map DecodedArguments.feeToken
      ≠ (decodeArgsPerSpec argsFeeA).map DecodedArguments.feeToken ∧
    (decodeArgs argsFeeA).map DecodedArguments.maxBaseFeePerGas
      ≠ (decodeArgsPerSpec argsFeeA).map DecodedArguments.maxBaseFeePerGas ∧
    (decodeArgs argsFeeA).map DecodedArguments.maxPriorityFeePerGas
      ≠ (decodeArgsPerSpec argsFeeA).map DecodedArguments.maxPriorityFeePerGas ∧
    (decodeArgs argsFeeA).map DecodedArguments.executionFee
      ≠ (decodeArgsPerSpec argsFeeA).map DecodedArguments.executionFee := by
  decide

/-- Claim C2 (code bug, evaluated at the failing input): two instructions
whose arguments blobs are well-formed 256-byte encodings differing exactly in
the `executionFee` word (and nowhere else) receive the identical EIP-712
digest, contradicting the claim that changing `executionFee` inside the
arguments blob changes the digest — the decoder never reads past hex
character 304, so the entire last word is ignored.  (The determinism half of
the claim holds: the digest is a pure function of its inputs by
construction.) -/
theorem C2_executionFee_not_hashed :
    instFeeA.arguments ≠ instFeeB.arguments ∧
    (decodeArgsPerSpec instFeeA.arguments).map DecodedArguments.executionFee
      ≠ (decodeArgsPerSpec instFeeB.arguments).map DecodedArguments.executionFee ∧
    (hashCompletionInstruction instFeeA sampleDelegate).isSome = true ∧
    hashCompletionInstruction instFeeA sampleDelegate
      = hashCompletionInstruction instFeeB sampleDelegate := by
  decide

/-- Claim C3: for every authorization digest and every pair of ordered
instruction lists whose digests all succeed, `createSigningHashList` returns
the list of length `1 + |completionInstructions| + |instructions|` whose
position 0 is the authorization digest, followed by the completion
instructions' digests in order and then the instructions' digests in order. -/
theorem C3_signing_hash_list_shape :
    ∀ (authHash delegateAddress : List Char) (cs is : List Instruction)
      (cds ids : List SigningHash),
      hashInstructionList delegateAddress cs = some cds →
      hashInstructionList delegateAddress is = some ids →
      createSigningHashList authHash ⟨some cs, some is⟩ delegateAddress
          = some (SigningHash.authorization authHash :: (cds ++ ids)) ∧
      (SigningHash.authorization authHash :: (cds ++ ids)).length
          = 1 + cs.length + is.length ∧
      (SigningHash.authorization authHash :: (cds ++ ids))[0]?
          = some (SigningHash.authorization authHash) ∧
      (∀ k : Nat, cds[k]? = (cs[k]?).bind fun i =>
          (hashCompletionInstruction i delegateAddress).map SigningHash.eip712) ∧
      (∀ k : Nat, ids[k]? = (is[k]?).bind fun i =>
          (hashCompletionInstruction i delegateAddress).map SigningHash.eip712) := by
  intro authHash delegateAddress cs is cds ids hc hi
  obtain ⟨hlc, hec⟩ := hashInstructionList_spec delegateAddress cs cds hc
  obtain ⟨hli, hei⟩ := hashInstructionList_spec delegateAddress is ids hi
  refine ⟨?_, ?_, by simp, hec, hei⟩
  · simp [createSigningHashList, hc, hi]
  · simp only [List.length_cons, List.length_append, hlc, hli]
    omega

/-- Witness for C3 at a concrete one-element completion list and empty
instruction list. -/
theorem C3_witness :
    createSigningHashList sampleAuthHash ⟨some [instGood], some []⟩ sampleDelegate
      = some (SigningHash.authorization sampleAuthHash
          :: ([SigningHash.eip712 tGood] ++ [])) :=
  (C3_signing_hash_list_shape sampleAuthHash sampleDelegate [instGood] []
    [SigningHash.eip712 tGood] [] (by decide) rfl).1

/-- Claim C4, counterexample to the claim as stated: an arguments blob of
only 152 bytes (304 hex characters) after the marker — the wrong byte length —
decodes successfully instead of failing, so the decoder does silently succeed
on wrong-length input. -/
theorem C4_counterexample :
    (wrongLenArgs.drop 2).length ≠ 512 ∧ (decodeArgs wrongLenArgs).isSome = true := by
  decide

/-- Claim C4 as amended: the decoder performs no length validation.  It
succeeds on every input whose characters after the marker are hex digits and
number at least 273 — regardless of total length — and it returns a decode
failure whenever at most 272 characters follow the marker (the
`executionFee` segment is then empty and `BigInt('0x')` throws).  It is a
pure function, so it has no side effects. -/
theorem C4_decode_no_length_validation :
    (∀ a : List Char, (a.drop 2).all isHexDigit = true → 273 ≤ (a.drop 2).length →
      (decodeArgs a).isSome = true) ∧
    (∀ b : List Char, (b.drop 2).length ≤ 272 → decodeArgs b = none) := by
  constructor
  · intro a hhex hlen
    have hall : ∀ c ∈ a.drop 2, isHexDigit c = true := List.all_eq_true.mp hhex
    have hp : ∀ i j : Nat, i < 273 → i < j →
        (parseHexNat (jsSlice (a.drop 2) i j)).isSome = true := by
      intro i j hi hij
      refine parseHexNat_isSome _ (jsSlice_ne_nil _ i j (by omega) hij) ?_
      intro c hc
      exact hall c (jsSlice_subset _ i j c hc)
    obtain ⟨v1, hv1⟩ := Option.isSome_iff_exists.mp (hp 104 136 (by omega) (by omega))
    obtain ⟨v2, hv2⟩ := Option.isSome_iff_exists.mp (hp 136 168 (by omega) (by omega))
    obtain ⟨v3, hv3⟩ := Option.isSome_iff_exists.mp (hp 208 240 (by omega) (by omega))
    obtain ⟨v4, hv4⟩ := Option.isSome_iff_exists.mp (hp 240 272 (by omega) (by omega))
    obtain ⟨v5, hv5⟩ := Option.isSome_iff_exists.mp (hp 272 304 (by omega) (by omega))
    simp [decodeArgs, hv1, hv2, hv3, hv4, hv5]
  · intro b hlen
    have hnil : jsSlice (b.drop 2) 272 304 = [] := by
      unfold jsSlice
      rw [List.drop_eq_nil_of_le (by omega), List.take_nil]
    have h5 : parseHexNat (jsSlice (b.drop 2) 272 304) = none := by
      rw [hnil]; rfl
    cases h1 : parseHexNat (jsSlice (b.drop 2) 104 136) <;>
    cases h2 : parseHexNat (jsSlice (b.drop 2) 136 168) <;>
    cases h3 : parseHexNat (jsSlice (b.drop 2) 208 240) <;>
    cases h4 : parseHexNat (jsSlice (b.drop 2) 240 272) <;>
      simp [decodeArgs, h1, h2, h3, h4, h5]

/-- Witness for C4: the 304-hex-digit blob decodes despite its wrong length,
and the bare `0x` marker fails to decode. -/
theorem C4_witness :
    (decodeArgs wrongLenArgs).isSome = true ∧ decodeArgs hexPfx = none :=
  ⟨C4_decode_no_length_validation.1 wrongLenArgs (by decide) (by decide),
   C4_decode_no_length_validation.2 hexPfx (by decide)⟩

/-- Claim C5, counterexample to the claim as stated: two blobs whose token
words encode the same 20-byte address value, once in lowercase and once in
uppercase, yield different `token` strings in the typed-data message.  A
normalization to the canonical EIP-55 checksum form would map both inputs to
the one canonical string of that address value, so the extracted addresses
are not checksum-normalized before being used in the hash computation. -/
theorem C5_counterexample :
    parseHexNat (jsSlice (argsLowerTok.drop 2) 24 64)
      = parseHexNat (jsSlice (argsUpperTok.drop 2) 24 64) ∧
    (hashCompletionInstruction instLowerTok sampleDelegate).isSome = true ∧
    (hashCompletionInstruction instLowerTok sampleDelegate).map
        (fun t => t.message.sweepERC20.token)
      ≠ (hashCompletionInstruction instUpperTok sampleDelegate).map
        (fun t => t.message.sweepERC20.token) := by
  decide

/-- Claim C5 as amended: the `token`, `target` and `feeToken` fields placed
into the typed-data message are exactly the verbatim `0x`-prefixed raw slices
of the arguments input, with no normalization of any kind; of the addresses
the claim names, only the signing address is passed through an EIP-55
checksum normalization (viem's `getAddress`) before the signer API call. -/
theorem C5_addresses_verbatim :
    ∀ (i : Instruction) (d : List Char) (t : TypedData),
      hashCompletionInstruction i d = some t →
      t.message.sweepERC20.token = hexPfx ++ jsSlice (i.arguments.drop 2) 24 64 ∧
      t.message.sweepERC20.target = hexPfx ++ jsSlice (i.arguments.drop 2) 64 104 ∧
      t.message.sweepERC20.fee.token = hexPfx ++ jsSlice (i.arguments.drop 2) 168 208 ∧
      ∀ (g : List Char → List Char) (org a : List Char) (ps : List (List Char)),
        (signRawPayloads g org ps a).signWith = g a := by
  intro i d t ht
  simp only [hashCompletionInstruction] at ht
  cases hdec : decodeArgs i.arguments with
  | none => rw [hdec] at ht; exact absurd ht (by simp)
  | some dec =>
    rw [hdec] at ht
    simp only [Option.map_some', Option.some.injEq] at ht
    obtain ⟨e1, e2, e3⟩ := decodeArgs_fields i.arguments dec hdec
    subst ht
    exact ⟨e1, e2, e3, fun g org a ps => rfl⟩

/-- Witness for C5 at the concrete all-zero instruction. -/
theorem C5_witness :
    tGood.message.sweepERC20.token = hexPfx ++ jsSlice (instGood.arguments.drop 2) 24 64 :=
  (C5_addresses_verbatim instGood sampleDelegate tGood (by decide)).1

/-- Claim C6 (modelled from the spec, the converter being absent from the
provided sources): the v-normalization is total — for every natural `v` it
yields a y-parity in `{0, 1}` without failing, with `0` and `1` passing
through unchanged, `27` and `28` mapping to `0` and `1`, and every other
value mapping via `v mod 2`. -/
theorem C6_normalizeV_total :
    ∀ v : Nat, normalizeV v ≤ 1 ∧
      (v = 0 ∨ v = 1 → normalizeV v = v) ∧
      (v = 27 → normalizeV v = 0) ∧
      (v = 28 → normalizeV v = 1) ∧
      (v ≠ 0 → v ≠ 1 → v ≠ 27 → v ≠ 28 → normalizeV v = v % 2) := by
  intro v
  unfold normalizeV
  split_ifs with h1 h2 h3 <;> refine ⟨?_, ?_, ?_, ?_, ?_⟩ <;> intros <;> omega

/-- Witness for C6 at the concrete inputs 0, 27, 28 and the EIP-155-style
value 35. -/
theorem C6_witness :
    normalizeV 0 = 0 ∧ normalizeV 27 = 0 ∧ normalizeV 28 = 1 ∧
    normalizeV 35 = 35 % 2 ∧ normalizeV 35 ≤ 1 :=
  ⟨(C6_normalizeV_total 0).2.1 (Or.inl rfl),
   (C6_normalizeV_total 27).2.2.1 rfl,
   (C6_normalizeV_total 28).2.2.2.1 rfl,
   (C6_normalizeV_total 35).2.2.2.2 (by decide) (by decide) (by decide) (by decide),
   (C6_normalizeV_total 35).1⟩

/-- Claim C7, counterexample to the claim as stated: for the raw signature of
the specification's own end-to-end scenario, whose `v` is the unprefixed
two-character string `"1b"`, the code's `sig.v.slice(2)` removes both
characters, so the flat signature is `r ++ s`-digits with no `v` byte at all
rather than ending in the two-hex-digit byte `1b`. -/
theorem C7_counterexample :
    flatSignature rSample sSample ['1', 'b'] = rSample ++ sSample.drop 2 ∧
    flatSignature rSample sSample ['1', 'b'] ≠ rSample ++ sSample.drop 2 ++ ['1', 'b'] := by
  decide

/-- Claim C7 as amended: the flat form is
`r ++ (s minus its first two characters) ++ (v minus its first two
characters)`; when `v` arrives as a `0x`-prefixed two-character byte, this is
exactly `r`, the digits of `s`, and that byte — the claimed concatenation —
while an unprefixed `v` loses its first two characters instead. -/
theorem C7_flat_concat :
    ∀ (r s v₂ : List Char), v₂.length = 2 →
      flatSignature r s (hexPfx ++ v₂) = r ++ s.drop 2 ++ v₂ := by
  intro r s v₂ _
  simp [flatSignature, hexPfx]

/-- Witness for C7 at the `0x1b`-style prefixed recovery byte. -/
theorem C7_witness :
    flatSignature rSample sSample (hexPfx ++ ['1', 'b'])
      = rSample ++ sSample.drop 2 ++ ['1', 'b'] :=
  C7_flat_concat rSample sSample ['1', 'b'] rfl

/-- Claim C8: if assembling the signing hash list fails (a digest computation
failed), the run makes no call to the signer at all; and when a signer call
happens, its payload is exactly the fully assembled hash list. -/
theorem C8_sign_only_after_assembly :
    ∀ (authHash : List Char) (resp : PaymentResponse) (delegateAddress : List Char)
      (signer : List SigningHash → List RawSignature),
      (createSigningHashList authHash resp delegateAddress = none →
        mainSigningPhase authHash resp delegateAddress signer = (none, [])) ∧
      (∀ hs : List SigningHash,
        createSigningHashList authHash resp delegateAddress = some hs →
        mainSigningPhase authHash resp delegateAddress signer
          = (some (signer hs), [SignerEvent.signCall hs])) := by
  intro authHash resp delegateAddress signer
  constructor
  · intro h
    simp [mainSigningPhase, h]
  · intro hs h
    simp [mainSigningPhase, h]

/-- Witness for C8: with an undecodable completion instruction the trace is
empty, and with empty instruction lists the single signer call carries the
assembled one-element list. -/
theorem C8_witness :
    mainSigningPhase sampleAuthHash respBad sampleDelegate (fun _ => []) = (none, []) ∧
    mainSigningPhase sampleAuthHash ⟨some [], some []⟩ sampleDelegate (fun _ => [])
      = (some [], [SignerEvent.signCall [SigningHash.authorization sampleAuthHash]]) :=
  ⟨(C8_sign_only_after_assembly sampleAuthHash respBad sampleDelegate (fun _ => [])).1
      (by decide),
   (C8_sign_only_after_assembly sampleAuthHash ⟨some [], some []⟩ sampleDelegate
      (fun _ => [])).2 [SigningHash.authorization sampleAuthHash] (by decide)⟩

/-- Claim C9: two instructions agreeing on `salt`, `maxExecutions`, `action`
and `chainId` whose arguments strings agree on the first 304 characters after
the `0x` marker receive the identical EIP-712 digest — nothing past character
304 (under the specified 512-character layout: the low bytes of the
`feeToken` slot and the whole `maxBaseFeePerGas`, `maxPriorityFeePerGas` and
`executionFee` slots) influences the digest. -/
theorem C9_digest_ignores_tail :
    ∀ (delegateAddress : List Char) (i₁ i₂ : Instruction),
      i₁.salt = i₂.salt → i₁.maxExecutions = i₂.maxExecutions →
      i₁.action = i₂.action → i₁.chainId = i₂.chainId →
      (i₁.arguments.drop 2).take 304 = (i₂.arguments.drop 2).take 304 →
      hashCompletionInstruction i₁ delegateAddress
        = hashCompletionInstruction i₂ delegateAddress := by
  intro d i₁ i₂ h1 h2 h3 h4 h5
  simp only [hashCompletionInstruction]
  rw [decodeArgs_eq_of_take i₁.arguments i₂.arguments h5, h1, h2, h3, h4]

/-- Witness for C9 at the two concrete blobs differing only in their final
32-byte word. -/
theorem C9_witness :
    hashCompletionInstruction instFeeA sampleDelegate
      = hashCompletionInstruction instFeeB sampleDelegate :=
  C9_digest_ignores_tail sampleDelegate instFeeA instFeeB rfl rfl rfl rfl (by decide)

/-- Claim C10: `getOptimalGasFees` returns the constant string `0x0` as
`maxBaseFeePerGas` for every response of the gas-fee API — the returned base
fee does not depend on the estimate at all — and only `maxPriorityFeePerGas`
is derived from the API's normal estimate, as its lowercase hex rendering
prefixed with `0x`. -/
theorem C10_maxBaseFee_always_zero :
    ∀ e : Nat, (getOptimalGasFees e).maxBaseFeePerGas = "0x0".data ∧
      (getOptimalGasFees e).maxPriorityFeePerGas = hexPfx ++ Nat.toDigits 16 e ∧
      ∀ f : Nat, (getOptimalGasFees e).maxBaseFeePerGas
        = (getOptimalGasFees f).maxBaseFeePerGas :=
  fun _ => ⟨rfl, rfl, fun _ => rfl⟩

end Otim
